import Mathlib

/-!
A shallow embedding of the StatsD aggregation engine of `bucky/statsd.py`
(cloudant/bucky), together with theorems settling the specification claims.

Modelling conventions:
* Python strings are `List Char` (abbreviated `Str`);
* Python dicts are insertion-ordered association lists (`List (Str × α)`):
  an update of an existing key keeps its position, a new key is appended,
  exactly as CPython dicts behave;
* Python sets are modelled as duplicate-free lists in insertion order
  (iteration order of CPython sets is unspecified, membership is what the
  theorems use);
* IEEE-754 floats are modelled as exact rationals (`ℚ`); `math.sqrt` is an
  uninterpreted parameter of the configuration (no claim concerns `.std`);
* `float(...)` string parsing is modelled for sign + decimal-digit forms
  (exponents, `inf`/`nan` and surrounding whitespace are not modelled; the
  parser only enters theorems through a parse-success hypothesis);
* the `log.error` effect of `bad_line` is modelled as a counter `badLines`.
-/

namespace Bucky

/-- Python strings are modelled as lists of characters. -/
abbrev Str : Type := List Char

/-- Coerce a Lean string literal into the model type. -/
def str (s : String) : Str := s.data

section Dict

variable {α : Type}

/-- Dict lookup, `d.get(k)` / `k in d` support (first matching key). -/
def alookup (k : Str) : List (Str × α) → Option α
  | [] => none
  | (k', v) :: rest => if k' = k then some v else alookup k rest

/-- Python `k in d`. -/
def akey (k : Str) (l : List (Str × α)) : Bool :=
  (alookup k l).isSome

/-- Dict update `d[k] = v`: an existing key keeps its position, a new key is
appended at the end (CPython dict semantics). -/
def ainsert (k : Str) (v : α) : List (Str × α) → List (Str × α)
  | [] => [(k, v)]
  | (k', v') :: rest => if k' = k then (k', v) :: rest else (k', v') :: ainsert k v rest

/-- Python `dst.update(src)`. -/
def aupdate (dst src : List (Str × α)) : List (Str × α) :=
  src.foldl (fun acc kv => ainsert kv.1 kv.2 acc) dst

end Dict

/-! ### KeySanitizer: the three `key_res` regex substitutions (statsd.py 89-93) -/

/-- Characters matched by the regex class `\s` (ASCII part). -/
def isPySpace (c : Char) : Bool :=
  c ∈ ([' ', '\t', '\n', '\r', '\x0b', '\x0c'] : List Char)

/-- Substitution `\s+ → "_"`: the Boolean records whether the previous
character was part of a whitespace run already replaced. -/
def collapseWsAux : Bool → Str → Str
  | _, [] => []
  | prevWs, c :: cs =>
    if isPySpace c then
      if prevWs then collapseWsAux true cs
      else '_' :: collapseWsAux true cs
    else c :: collapseWsAux false cs

/-- Substitution `\s+ → "_"` of `key_res`. -/
def collapseWs (s : Str) : Str := collapseWsAux false s

/-- Substitution `\/ → "-"` of `key_res`. -/
def slashToDash (s : Str) : Str :=
  s.map (fun c => if c = '/' then '-' else c)

/-- Character class `[a-zA-Z_\-0-9\.]` of the third `key_res` regex. -/
def allowedChar (c : Char) : Bool :=
  ('a' ≤ c && c ≤ 'z') || ('A' ≤ c && c ≤ 'Z') || ('0' ≤ c && c ≤ '9') ||
    c = '_' || c = '-' || c = '.'

/-- The key sanitizer: the three `key_res` substitutions applied in order
(as the loop in `handle_key`, statsd.py 382-383). -/
def sanitize (s : Str) : Str :=
  (slashToDash (collapseWs s)).filter allowedChar

/-! ### Python string primitives -/

/-- Python `s.split(sep)` for a one-character separator: splits at every
occurrence and keeps empty pieces; the result is never the empty list. -/
def splitOnChar (c : Char) : Str → List Str
  | [] => [[]]
  | x :: xs =>
    if x = c then [] :: splitOnChar c xs
    else
      match splitOnChar c xs with
      | [] => [[x]]
      | y :: ys => (x :: y) :: ys

/-- Python `s.strip()` (ASCII whitespace). -/
def pyStrip (s : Str) : Str :=
  ((s.dropWhile isPySpace).reverse.dropWhile isPySpace).reverse

/-- Digit value of an ASCII digit character. -/
def digitVal (c : Char) : ℕ := c.toNat - 48

/-- Value of a string of ASCII digits. -/
def digitsToNat (cs : Str) : ℕ :=
  cs.foldl (fun acc c => 10 * acc + digitVal c) 0

/-- Python `float(s)` on unsigned decimal forms `d+`, `d+.d*`, `.d+`. -/
def parseUFloat? (cs : Str) : Option ℚ :=
  match splitOnChar '.' cs with
  | [ip] =>
    if ip ≠ [] ∧ ip.all Char.isDigit then some (digitsToNat ip) else none
  | [ip, fp] =>
    if (ip ≠ [] ∨ fp ≠ []) ∧ ip.all Char.isDigit ∧ fp.all Char.isDigit then
      some ((digitsToNat ip : ℚ) + (digitsToNat fp : ℚ) / (10 : ℚ) ^ fp.length)
    else none
  | _ => none

/-- Python `float(s)`: optional sign followed by an unsigned decimal form. -/
def parseFloat? (cs : Str) : Option ℚ :=
  match cs with
  | [] => parseUFloat? []
  | c :: rest =>
    if c = '+' then parseUFloat? rest
    else if c = '-' then (parseUFloat? rest).map (fun q => -q)
    else parseUFloat? (c :: rest)

/-- Python `int(...)` on a float value: truncation toward zero. -/
def pyIntOfRat (q : ℚ) : ℤ :=
  if 0 ≤ q then ⌊q⌋ else ⌈q⌉

/-- Python list indexing `l[i]` with negative-index wrap-around; an index that
is out of range (an `IndexError` in Python) yields the default. -/
def pyGetD {α : Type} (l : List α) (i : ℤ) (d : α) : α :=
  if 0 ≤ i then l.getD i.toNat d
  else if (l.length : ℤ) + i < 0 then d
  else l.getD ((l.length : ℤ) + i).toNat d

/-- Decimal rendering of a natural number (Python `str(n)` for `n ≥ 0`). -/
def natToStr (n : ℕ) : Str :=
  if h : n < 10 then [Char.ofNat (48 + n)]
  else natToStr (n / 10) ++ [Char.ofNat (48 + n % 10)]
  termination_by n
  decreasing_by exact Nat.div_lt_self (by omega) (by omega)

/-- Python `str(i)` / `"%s" % i` for an integer. -/
def intToStr (i : ℤ) : Str :=
  if i < 0 then '-' :: natToStr (-i).toNat else natToStr i.toNat

/-! ### Configuration and aggregation state -/

/-- Tag dictionaries (DogStatsD tags; a tag key may carry no value). -/
abbrev Tags : Type := List (Str × Option Str)

/-- Python truthiness of a metadata value (`None` and `{}` are falsy). -/
def metaTruthy : Option Tags → Bool
  | none => false
  | some t => !t.isEmpty

/-- The configuration surface of `StatsDHandler.__init__` that the claims
touch.  `pfxGlobal`/`pfxCounter`/… stand for the source's
`statsd_global_prefix`/`statsd_prefix_counter`/… options.  `sqrtQ` is an
uninterpreted stand-in for `math.sqrt` (exact square roots are irrational;
no claim concerns the `.std` value). -/
structure Cfg where
  flush_time : ℚ
  legacy_namespace : Bool
  pfxGlobal : Str
  pfxCounter : Str
  pfxTimer : Str
  pfxGauge : Str
  pfxSet : Str
  metadata : Option Tags
  pct_thresholds : List ℚ
  statsd_persistent_gauges : Bool
  delete_idlestats : Bool
  statsd_delete_counters : Bool
  statsd_delete_timers : Bool
  statsd_delete_sets : Bool
  statsd_onlychanged_gauges : Bool
  enable_timer_mean : Bool
  enable_timer_upper : Bool
  enable_timer_lower : Bool
  enable_timer_count : Bool
  enable_timer_count_ps : Bool
  enable_timer_sum : Bool
  enable_timer_sum_squares : Bool
  enable_timer_median : Bool
  enable_timer_std : Bool
  sqrtQ : ℚ → ℚ

/-- Derived flag `self.delete_counters` (statsd.py 116). -/
def delete_counters (cfg : Cfg) : Bool :=
  cfg.delete_idlestats && cfg.statsd_delete_counters

/-- Derived flag `self.delete_timers` (statsd.py 117). -/
def delete_timers (cfg : Cfg) : Bool :=
  cfg.delete_idlestats && cfg.statsd_delete_timers

/-- Derived flag `self.delete_sets` (statsd.py 118). -/
def delete_sets (cfg : Cfg) : Bool :=
  cfg.delete_idlestats && cfg.statsd_delete_sets

/-- Derived flag `self.onlychanged_gauges` (statsd.py 119). -/
def onlychanged_gauges (cfg : Cfg) : Bool :=
  cfg.delete_idlestats && cfg.statsd_onlychanged_gauges

/-- The `make_name` helper (statsd.py 62-67). -/
def make_name (parts : List Str) : Str :=
  parts.foldl (fun name part => if part ≠ [] then name ++ part ++ ['.'] else name) []

/-- `self.name_global` (statsd.py 96/103). -/
def name_global (cfg : Cfg) : Str :=
  if cfg.legacy_namespace then str "stats." else make_name [cfg.pfxGlobal]

/-- `self.name_legacy_rate` (statsd.py 97). -/
def name_legacy_rate : Str := str "stats."

/-- `self.name_legacy_count` (statsd.py 98). -/
def name_legacy_count : Str := str "stats_counts."

/-- `self.name_counter` (statsd.py 104; only set in modern mode). -/
def name_counter (cfg : Cfg) : Str :=
  make_name [cfg.pfxGlobal, cfg.pfxCounter]

/-- `self.name_timer` (statsd.py 99/105). -/
def name_timer (cfg : Cfg) : Str :=
  if cfg.legacy_namespace then str "stats.timers."
  else make_name [cfg.pfxGlobal, cfg.pfxTimer]

/-- `self.name_gauge` (statsd.py 100/106). -/
def name_gauge (cfg : Cfg) : Str :=
  if cfg.legacy_namespace then str "stats.gauges."
  else make_name [cfg.pfxGlobal, cfg.pfxGauge]

/-- `self.name_set` (statsd.py 101/107). -/
def name_set (cfg : Cfg) : Str :=
  if cfg.legacy_namespace then str "stats.sets."
  else make_name [cfg.pfxGlobal, cfg.pfxSet]

/-- The five mutable maps of `StatsDHandler` plus a counter of `bad_line`
log events. -/
structure SDState where
  counters : List (Str × ℤ)
  gauges : List (Str × ℚ)
  timers : List (Str × List ℚ)
  sets : List (Str × List Str)
  keys_seen : List (Str × Option Tags)
  badLines : ℕ
deriving DecidableEq

/-- The state of a freshly constructed handler. -/
def emptyState : SDState := ⟨[], [], [], [], [], 0⟩

/-- `bad_line` (statsd.py 433-434): logs the offending line. -/
def bad_line (s : SDState) : SDState :=
  { s with badLines := s.badLines + 1 }

/-! ### Protocol parsing and the sample handlers -/

/-- Body of the tag loop of `handle_tags` (statsd.py 336-345), for one
comma-separated element. -/
def parse_tag_elem (i : Str) : Str × Option Str :=
  let kv := splitOnChar '=' i
  if 1 < kv.length then (kv.headD [], some (kv.getD 1 []))
  else
    let kv2 := splitOnChar ':' i
    if 1 < kv2.length then (kv2.headD [], some (kv2.getD 1 []))
    else (i, none)

/-- `handle_tags` (statsd.py 330-346). -/
def handle_tags (line : Str) : Str × Option Tags :=
  let bits := splitOnChar '#' line
  if bits.length < 2 then (line, none)
  else
    let tags := ((splitOnChar ',' (bits.getD 1 [])).map parse_tag_elem).foldl
      (fun acc kv => ainsert kv.1 kv.2 acc) ([] : Tags)
    (bits.headD [], some tags)

/-- `handle_key` (statsd.py 375-385): coalesce tags with the configured
default metadata, sanitize the key, and record it in `keys_seen`. -/
def handle_key (cfg : Cfg) (key : Str) (tags : Option Tags) (s : SDState) :
    Str × SDState :=
  let coalesced : Option Tags :=
    match tags with
    | none => cfg.metadata
    | some t =>
      some (if metaTruthy cfg.metadata then aupdate t (cfg.metadata.getD []) else t)
  let k := sanitize key
  (k, { s with keys_seen := ainsert k coalesced s.keys_seen })

/-- `handle_timer` (statsd.py 387-393). -/
def handle_timer (key : Str) (fields : List Str) (s : SDState) : SDState :=
  match (if fields.headD [] = [] then some 0 else parseFloat? (fields.headD [])) with
  | some val =>
    { s with timers := ainsert key ((alookup key s.timers).getD [] ++ [val]) s.timers }
  | none => bad_line s

/-- `handle_gauge` (statsd.py 395-407). -/
def handle_gauge (key : Str) (fields : List Str) (s : SDState) : SDState :=
  let valstr := if fields.headD [] = [] then str "0" else fields.headD []
  match parseFloat? valstr with
  | none => bad_line s
  | some val =>
    if valstr.headD ' ' ∈ (['+', '-'] : List Char) ∧ akey key s.gauges then
      { s with gauges := ainsert key ((alookup key s.gauges).getD 0 + val) s.gauges }
    else { s with gauges := ainsert key val s.gauges }

/-- `handle_set` (statsd.py 409-414). -/
def handle_set (key : Str) (fields : List Str) (s : SDState) : SDState :=
  let valstr := if fields.headD [] = [] then str "0" else fields.headD []
  let cur := (alookup key s.sets).getD []
  { s with sets := ainsert key (if valstr ∈ cur then cur else cur ++ [valstr]) s.sets }

/-- `handle_counter` (statsd.py 416-431).  A zero sampling rate raises
`ZeroDivisionError` inside the `try`, which the source reports as a bad
line. -/
def handle_counter (key : Str) (fields : List Str) (s : SDState) : SDState :=
  let f2 := fields.getD 2 []
  let rate : ℚ :=
    if 2 < fields.length ∧ f2.take 1 = ['@'] then
      match parseFloat? (pyStrip (f2.drop 1)) with
      | some r => r
      | none => 1
    else 1
  match (if fields.headD [] = [] then some 0 else parseFloat? (fields.headD [])) with
  | none => bad_line s
  | some fv =>
    if rate = 0 then bad_line s
    else
      { s with counters :=
          ainsert key ((alookup key s.counters).getD 0 + pyIntOfRat (fv / rate)) s.counters }

/-- Body of the sample loop of `handle_line` (statsd.py 361-373). -/
def handle_sample (key : Str) (sample : Str) (s : SDState) : SDState :=
  if '|' ∉ sample then bad_line s
  else
    let fields := splitOnChar '|' sample
    let f1 := fields.getD 1 []
    if f1 = str "ms" then handle_timer key fields s
    else if f1 = str "g" then handle_gauge key fields s
    else if f1 = str "s" then handle_set key fields s
    else handle_counter key fields s

/-- `handle_line` (statsd.py 348-373). -/
def handle_line (cfg : Cfg) (line : Str) (s : SDState) : SDState :=
  let lt := handle_tags line
  let bits := splitOnChar ':' lt.1
  let ks := handle_key cfg (bits.headD []) lt.2 s
  if bits.tail = [] then bad_line ks.2
  else bits.tail.foldl (fun st sample => handle_sample ks.1 sample st) ks.2

/-! ### Flush tick and emissions -/

/-- One tuple put on the downstream queue by `enqueue` (statsd.py 188-197):
`(None, name, stat, stime)` or `(None, name, stat, stime, metadata)`; the
field `metadata = none` models the four-element form. -/
structure Emission where
  name : Str
  value : ℚ
  time : ℤ
  metadata : Option Tags
deriving DecidableEq

/-- `enqueue` (statsd.py 188-197).  `metadata_key=None` and the empty key
are both falsy in `if metadata_key:`, falling back to the configured
default metadata; a metadata value that is `None` or `{}` is falsy in
`if metadata:` and produces the four-element tuple. -/
def enqueue (cfg : Cfg) (ks : List (Str × Option Tags)) (name : Str) (stat : ℚ)
    (stime : ℤ) (mkey : Option Str) : Emission :=
  let metadata : Option Tags :=
    match mkey with
    | some k => if k ≠ [] then (alookup k ks).join else cfg.metadata
    | none => cfg.metadata
  if metaTruthy metadata then ⟨name, stat, stime, metadata⟩
  else ⟨name, stat, stime, none⟩

/-- The cumulative-sum loop of `enqueue_timers` (statsd.py 212-219):
`cumFrom 0 v` is the list of partial sums of `v`. -/
def cumFrom (acc : ℚ) : List ℚ → List ℚ
  | [] => []
  | x :: xs => (acc + x) :: cumFrom (acc + x) xs

/-- Python `v.sort()`: ascending stable sort. -/
def sortQ (l : List ℚ) : List ℚ :=
  List.insertionSort (fun a b => a ≤ b) l

/-- Body of the percentile-threshold loop of `enqueue_timers`
(statsd.py 221-244), for sorted samples `v`, partial sums `cum`, partial
sums of squares `cumSq` and one threshold `p`. -/
def emit_pct (cfg : Cfg) (ks : List (Str × Option Tags)) (stime : ℤ) (k : Str)
    (v cum cumSq : List ℚ) (count : ℕ) (p : ℚ) : List Emission :=
  let thresh_idx : ℤ := ⌊p / 100 * (count : ℚ)⌋
  if thresh_idx = 0 then []
  else
    let vsum := pyGetD cum (thresh_idx - 1) 0
    let t : ℤ := pyIntOfRat p
    (if cfg.enable_timer_mean then
      [enqueue cfg ks (name_timer cfg ++ k ++ str ".mean_" ++ intToStr t)
        (vsum / (thresh_idx : ℚ)) stime (some k)] else [])
    ++ (if cfg.enable_timer_upper then
      [enqueue cfg ks (name_timer cfg ++ k ++ str ".upper_" ++ intToStr t)
        (pyGetD v (thresh_idx - 1) 0) stime (some k)] else [])
    ++ (if cfg.enable_timer_count then
      [enqueue cfg ks (name_timer cfg ++ k ++ str ".count_" ++ intToStr t)
        (thresh_idx : ℚ) stime (some k)] else [])
    ++ (if cfg.enable_timer_sum then
      [enqueue cfg ks (name_timer cfg ++ k ++ str ".sum_" ++ intToStr t)
        vsum stime (some k)] else [])
    ++ (if cfg.enable_timer_sum_squares then
      [enqueue cfg ks (name_timer cfg ++ k ++ str ".sum_squares_" ++ intToStr t)
        (pyGetD cumSq (thresh_idx - 1) 0) stime (some k)] else [])

/-- Body of the per-key loop of `enqueue_timers` (statsd.py 202-279): the
emissions for key `k` whose sample list is `v0`. -/
def enqueue_timer_one (cfg : Cfg) (ks : List (Str × Option Tags)) (stime : ℤ)
    (k : Str) (v0 : List ℚ) : List Emission :=
  if v0 = [] then
    [enqueue cfg ks (name_timer cfg ++ k ++ str ".count") 0 stime (some k),
     enqueue cfg ks (name_timer cfg ++ k ++ str ".count_ps") 0 stime (some k)]
  else
    let v := sortQ v0
    let count := v.length
    let vmin := v.headD 0
    let vmax := v.getLastD 0
    let cum := cumFrom 0 v
    let cumSq := cumFrom 0 (v.map (fun x => x * x))
    let pctEms :=
      (cfg.pct_thresholds.map (emit_pct cfg ks stime k v cum cumSq count)).flatten
    let vsum := pyGetD cum ((count : ℤ) - 1) 0
    let mean := vsum / (count : ℚ)
    pctEms
    ++ (if cfg.enable_timer_mean then
        [enqueue cfg ks (name_timer cfg ++ k ++ str ".mean") mean stime (some k)]
      else [])
    ++ (if cfg.enable_timer_upper then
        [enqueue cfg ks (name_timer cfg ++ k ++ str ".upper") vmax stime (some k)]
      else [])
    ++ (if cfg.enable_timer_lower then
        [enqueue cfg ks (name_timer cfg ++ k ++ str ".lower") vmin stime (some k)]
      else [])
    ++ (if cfg.enable_timer_count then
        [enqueue cfg ks (name_timer cfg ++ k ++ str ".count") (count : ℚ) stime (some k)]
      else [])
    ++ (if cfg.enable_timer_count_ps then
        [enqueue cfg ks (name_timer cfg ++ k ++ str ".count_ps")
          ((count : ℚ) / cfg.flush_time) stime (some k)]
      else [])
    ++ (if cfg.enable_timer_median then
        let mid := count / 2
        let median :=
          if count % 2 = 0 then (pyGetD v ((mid : ℤ) - 1) 0 + pyGetD v (mid : ℤ) 0) / 2
          else pyGetD v (mid : ℤ) 0
        [enqueue cfg ks (name_timer cfg ++ k ++ str ".median") median stime (some k)]
      else [])
    ++ (if cfg.enable_timer_sum then
        [enqueue cfg ks (name_timer cfg ++ k ++ str ".sum") vsum stime (some k)]
      else [])
    ++ (if cfg.enable_timer_sum_squares then
        [enqueue cfg ks (name_timer cfg ++ k ++ str ".sum_squares")
          (pyGetD cumSq ((count : ℤ) - 1) 0) stime (some k)]
      else [])
    ++ (if cfg.enable_timer_std then
        [enqueue cfg ks (name_timer cfg ++ k ++ str ".std")
          (cfg.sqrtQ ((v.map (fun x => (x - mean) ^ 2)).sum / (count : ℚ))) stime (some k)]
      else [])

/-- `enqueue_timers` (statsd.py 199-283): the number of keys handled (its
return value `ret`), the queue entries in order, and the reset timer map
(every key's list is set to `[]`, statsd.py 280). -/
def enqueue_timers (cfg : Cfg) (ks : List (Str × Option Tags)) (stime : ℤ)
    (timers : List (Str × List ℚ)) : ℕ × List Emission × List (Str × List ℚ) :=
  (timers.length,
   (timers.map (fun kv => enqueue_timer_one cfg ks stime kv.1 kv.2)).flatten,
   timers.map (fun kv => (kv.1, ([] : List ℚ))))

/-- Body of the loop of `enqueue_counters` (statsd.py 307-317). -/
def enqueue_counter_one (cfg : Cfg) (ks : List (Str × Option Tags)) (stime : ℤ)
    (k : Str) (v : ℤ) : List Emission :=
  let stat_rate :=
    if cfg.legacy_namespace then name_legacy_rate ++ k
    else name_counter cfg ++ k ++ str ".rate"
  let stat_count :=
    if cfg.legacy_namespace then name_legacy_count ++ k
    else name_counter cfg ++ k ++ str ".count"
  [enqueue cfg ks stat_rate ((v : ℚ) / cfg.flush_time) stime (some k),
   enqueue cfg ks stat_count (v : ℚ) stime (some k)]

/-- `enqueue_counters` (statsd.py 304-318): count, emissions, and the reset
counter map (every surviving counter is set to `0`, statsd.py 316). -/
def enqueue_counters (cfg : Cfg) (ks : List (Str × Option Tags)) (stime : ℤ)
    (counters : List (Str × ℤ)) : ℕ × List Emission × List (Str × ℤ) :=
  (counters.length,
   (counters.map (fun kv => enqueue_counter_one cfg ks stime kv.1 kv.2)).flatten,
   counters.map (fun kv => (kv.1, (0 : ℤ))))

/-- `enqueue_gauges` (statsd.py 294-302): gauges are emitted (skipping idle
keys when `onlychanged_gauges` is set) and never reset. -/
def enqueue_gauges (cfg : Cfg) (ks : List (Str × Option Tags)) (stime : ℤ)
    (gauges : List (Str × ℚ)) : ℕ × List Emission :=
  let emitted := gauges.filter (fun kv => !onlychanged_gauges cfg || akey kv.1 ks)
  (emitted.length,
   emitted.map (fun kv => enqueue cfg ks (name_gauge cfg ++ kv.1) kv.2 stime (some kv.1)))

/-- `enqueue_sets` (statsd.py 285-292): count, emissions, and the reset set
map (every key is set to the empty set, statsd.py 291). -/
def enqueue_sets (cfg : Cfg) (ks : List (Str × Option Tags)) (stime : ℤ)
    (sets : List (Str × List Str)) : ℕ × List Emission × List (Str × List Str) :=
  (sets.length,
   sets.map (fun kv =>
     enqueue cfg ks (name_set cfg ++ kv.1 ++ str ".count") ((kv.2.length : ℚ)) stime (some kv.1)),
   sets.map (fun kv => (kv.1, ([] : List Str))))

/-- `tick` (statsd.py 156-181): idle reaping, the four emission passes, the
`numStats` meta-metric, and the `keys_seen` prune.  Returns the new state
and the queue entries in order.  `kept_keys` is a CPython set whose
iteration order is unspecified; it is modelled as the deduplicated list of
keys in first-occurrence order. -/
def tick (cfg : Cfg) (stime : ℤ) (s : SDState) : SDState × List Emission :=
  let timers0 :=
    if delete_timers cfg then s.timers.filter (fun kv => akey kv.1 s.keys_seen)
    else s.timers
  let counters0 :=
    if delete_counters cfg then s.counters.filter (fun kv => akey kv.1 s.keys_seen)
    else s.counters
  let sets0 :=
    if delete_sets cfg then s.sets.filter (fun kv => akey kv.1 s.keys_seen)
    else s.sets
  let rt := enqueue_timers cfg s.keys_seen stime timers0
  let rc := enqueue_counters cfg s.keys_seen stime counters0
  let rg := enqueue_gauges cfg s.keys_seen stime s.gauges
  let rs := enqueue_sets cfg s.keys_seen stime sets0
  let num_stats := rt.1 + rc.1 + rg.1 + rs.1
  let emN := enqueue cfg s.keys_seen (name_global cfg ++ str "numStats")
    (num_stats : ℚ) stime none
  let kept := ((rt.2.2.map Prod.fst) ++ (rc.2.2.map Prod.fst) ++
    (s.gauges.map Prod.fst) ++ (rs.2.2.map Prod.fst)).dedup
  ({ counters := rc.2.2, gauges := s.gauges, timers := rt.2.2, sets := rs.2.2,
     keys_seen := kept.filterMap (fun k => (alookup k s.keys_seen).map (fun m => (k, m))),
     badLines := s.badLines },
   rt.2.1 ++ rc.2.1 ++ rg.2 ++ rs.2.1 ++ [emN])

/-! ### Gauge persistence -/

/-- The JSON object written by `save_gauges` (statsd.py 145-154): each gauge
key maps to the pair `[gauges[k], keys_seen.get(k, None)]`.  Returns `none`
when persistence is disabled (nothing is written). -/
def save_gauges (cfg : Cfg) (s : SDState) : Option (List (Str × (ℚ × Option Tags))) :=
  if cfg.statsd_persistent_gauges then
    some (s.gauges.map (fun kv => (kv.1, (kv.2, (alookup kv.1 s.keys_seen).join))))
  else none

/-- `load_gauges` (statsd.py 131-143) applied to the already-parsed JSON
content of the save file; `none` models a missing file. -/
def load_gauges (cfg : Cfg) (file : Option (List (Str × (ℚ × Option Tags))))
    (s : SDState) : SDState :=
  if cfg.statsd_persistent_gauges then
    match file with
    | none => s
    | some gauges =>
      { s with
          gauges := aupdate s.gauges (gauges.map (fun kv => (kv.1, kv.2.1))),
          keys_seen := aupdate s.keys_seen (gauges.map (fun kv => (kv.1, kv.2.2))) }
  else s

/-! ### Lock instrumentation

Each handler is mirrored by a function that lists, in source order, the
mutations of the five state maps it performs, each tagged with whether the
engine mutex `self.lock` is held at that program point (i.e. whether the
statement sits inside a `with self.lock:` block in `statsd.py`). -/

/-- Identifiers of the five state maps. -/
inductive MapId
  | counters
  | gauges
  | timers
  | sets
  | keysSeen
deriving DecidableEq

/-- One state-map mutation, tagged with whether `self.lock` is held where
the source performs it. -/
structure Mut where
  target : MapId
  underLock : Bool
deriving DecidableEq

/-- `handle_key` writes `keys_seen` (statsd.py 384) with no `with self.lock`
around it. -/
def handle_key_muts : List Mut := [⟨MapId.keysSeen, false⟩]

/-- `handle_timer` (statsd.py 387-393): the `setdefault`/`append` sits inside
`with self.lock`; a parse failure mutates nothing. -/
def handle_timer_muts (fields : List Str) : List Mut :=
  match (if fields.headD [] = [] then some 0 else parseFloat? (fields.headD [])) with
  | some _ => [⟨MapId.timers, true⟩]
  | none => []

/-- `handle_gauge` (statsd.py 395-407): the gauge write sits inside
`with self.lock`. -/
def handle_gauge_muts (fields : List Str) : List Mut :=
  let valstr := if fields.headD [] = [] then str "0" else fields.headD []
  match parseFloat? valstr with
  | none => []
  | some _ => [⟨MapId.gauges, true⟩]

/-- `handle_set` (statsd.py 409-414): the set write sits inside
`with self.lock`. -/
def handle_set_muts (_fields : List Str) : List Mut := [⟨MapId.sets, true⟩]

/-- `handle_counter` (statsd.py 416-431): the counter write sits inside
`with self.lock`. -/
def handle_counter_muts (fields : List Str) : List Mut :=
  let f2 := fields.getD 2 []
  let rate : ℚ :=
    if 2 < fields.length ∧ f2.take 1 = ['@'] then
      match parseFloat? (pyStrip (f2.drop 1)) with
      | some r => r
      | none => 1
    else 1
  match (if fields.headD [] = [] then some 0 else parseFloat? (fields.headD [])) with
  | none => []
  | some _ => if rate = 0 then [] else [⟨MapId.counters, true⟩]

/-- Mutations of one iteration of the sample loop (statsd.py 361-373). -/
def handle_sample_muts (sample : Str) : List Mut :=
  if '|' ∉ sample then []
  else
    let fields := splitOnChar '|' sample
    let f1 := fields.getD 1 []
    if f1 = str "ms" then handle_timer_muts fields
    else if f1 = str "g" then handle_gauge_muts fields
    else if f1 = str "s" then handle_set_muts fields
    else handle_counter_muts fields

/-- Mutations of `handle_line` (statsd.py 348-373): the unguarded
`handle_key` write followed by the guarded per-sample writes. -/
def handle_line_muts (line : Str) : List Mut :=
  let lt := handle_tags line
  let bits := splitOnChar ':' lt.1
  handle_key_muts ++
    (if bits.tail = [] then [] else (bits.tail.map handle_sample_muts).flatten)

/-- `tick` (statsd.py 156-181) performs all of its mutations (idle reaping,
the per-type resets, and the `keys_seen` prune) inside one
`with self.lock:` block. -/
def tick_muts : List Mut :=
  [⟨MapId.timers, true⟩, ⟨MapId.counters, true⟩, ⟨MapId.sets, true⟩,
   ⟨MapId.keysSeen, true⟩]

/-- `load_gauges` (statsd.py 131-143) updates `gauges` and `keys_seen` with
no `with self.lock` around it (`save_gauges` only reads). -/
def load_gauges_muts (cfg : Cfg)
    (file : Option (List (Str × (ℚ × Option Tags)))) : List Mut :=
  if cfg.statsd_persistent_gauges then
    match file with
    | none => []
    | some _ => [⟨MapId.gauges, false⟩, ⟨MapId.keysSeen, false⟩]
  else []

/-! ### Concrete fixtures used by witnesses and counterexamples -/

/-- A modern-namespace configuration with no default metadata, one percentile
threshold 90, flush time 10, persistence on, idle deletion off, and every
timer sub-metric enabled. -/
def cfg0 : Cfg :=
  { flush_time := 10, legacy_namespace := false,
    pfxGlobal := [], pfxCounter := [], pfxTimer := [], pfxGauge := [], pfxSet := [],
    metadata := none, pct_thresholds := [90],
    statsd_persistent_gauges := true, delete_idlestats := false,
    statsd_delete_counters := false, statsd_delete_timers := false,
    statsd_delete_sets := false, statsd_onlychanged_gauges := false,
    enable_timer_mean := true, enable_timer_upper := true, enable_timer_lower := true,
    enable_timer_count := true, enable_timer_count_ps := true, enable_timer_sum := true,
    enable_timer_sum_squares := true, enable_timer_median := true,
    enable_timer_std := true, sqrtQ := fun _ => 0 }

/-- Like `cfg0` but with the `timer_count` and `timer_count_ps` sub-metric
enables switched off. -/
def cfgNoCount : Cfg :=
  { cfg0 with enable_timer_count := false, enable_timer_count_ps := false }

/-- A handler state with one entry in each of the four maps. -/
def stMix : SDState :=
  { emptyState with
      counters := [(str "c", 5)], gauges := [(str "g", 2)],
      timers := [(str "t", [1])], sets := [(str "s4", [str "x"])] }

/-- A handler state with one gauge whose key is absent from `keys_seen`. -/
def stGauge : SDState := { emptyState with gauges := [(str "a", 1)] }

/-! ## Theorems

Helper lemmas first, then the claim theorems C1-C10. -/

/-! #### Sanitizer lemmas -/

theorem allowedChar_not_space {c : Char} (h : allowedChar c = true) :
    isPySpace c = false := by
  by_contra hs
  rw [Bool.not_eq_false] at hs
  simp only [isPySpace, List.mem_cons, decide_eq_true_eq, List.not_mem_nil, or_false] at hs
  rcases hs with h1 | h1 | h1 | h1 | h1 | h1 <;> subst h1 <;> simp [allowedChar] at h

theorem collapseWsAux_of_no_ws {l : Str} (h : ∀ c ∈ l, isPySpace c = false) :
    ∀ b, collapseWsAux b l = l := by
  induction l with
  | nil => intro b; rfl
  | cons c cs ih =>
    intro b
    have hc : isPySpace c = false := h c (List.mem_cons_self c cs)
    simp only [collapseWsAux, hc, if_neg, Bool.false_eq_true, if_false]
    rw [ih (fun x hx => h x (List.mem_cons_of_mem c hx)) false]

theorem slashToDash_of_no_slash {l : Str} (h : ∀ c ∈ l, c ≠ '/') :
    slashToDash l = l := by
  induction l with
  | nil => rfl
  | cons c cs ih =>
    simp only [slashToDash, List.map_cons]
    rw [if_neg (h c (List.mem_cons_self c cs))]
    have := ih (fun x hx => h x (List.mem_cons_of_mem c hx))
    simpa [slashToDash] using this

theorem mem_sanitize_allowed {x : Str} {c : Char} (h : c ∈ sanitize x) :
    allowedChar c = true :=
  List.of_mem_filter h

theorem sanitize_idem (x : Str) : sanitize (sanitize x) = sanitize x := by
  have hall : ∀ c ∈ sanitize x, allowedChar c = true := fun c hc => mem_sanitize_allowed hc
  have h1 : collapseWs (sanitize x) = sanitize x :=
    collapseWsAux_of_no_ws (fun c hc => allowedChar_not_space (hall c hc)) false
  have h2 : slashToDash (sanitize x) = sanitize x :=
    slashToDash_of_no_slash (fun c hc h7 => by
      subst h7; exact absurd (hall _ hc) (by decide))
  calc sanitize (sanitize x)
      = (slashToDash (collapseWs (sanitize x))).filter allowedChar := rfl
    _ = (sanitize x).filter allowedChar := by rw [h1, h2]
    _ = sanitize x := List.filter_eq_self.mpr hall


/-! #### Association-list lemmas -/

section DictLemmas

variable {α β : Type}

theorem alookup_ainsert_self (k : Str) (v : α) (l : List (Str × α)) :
    alookup k (ainsert k v l) = some v := by
  induction l with
  | nil => simp [ainsert, alookup]
  | cons kv rest ih =>
    obtain ⟨k', v'⟩ := kv
    by_cases h : k' = k
    · subst h; simp [ainsert, alookup]
    · simp [ainsert, alookup, h, ih]

theorem alookup_ainsert_ne {k k' : Str} (h : k' ≠ k) (v : α) (l : List (Str × α)) :
    alookup k' (ainsert k v l) = alookup k' l := by
  have hk : ¬(k = k') := fun hh => h hh.symm
  induction l with
  | nil => simp [ainsert, alookup, hk]
  | cons kv rest ih =>
    obtain ⟨k0, v0⟩ := kv
    by_cases h0 : k0 = k
    · subst h0
      simp [ainsert, alookup, hk]
    · simp only [ainsert, if_neg h0]
      by_cases h1 : k0 = k'
      · subst h1; simp [alookup]
      · simp [alookup, h1, ih]

theorem akey_ainsert (k k' : Str) (v : α) (l : List (Str × α)) :
    akey k' (ainsert k v l) = true ↔ k' = k ∨ akey k' l = true := by
  by_cases h : k' = k
  · subst h
    simp only [akey, alookup_ainsert_self, Option.isSome_some, true_or]
  · simp only [akey, alookup_ainsert_ne h, h, false_or]

theorem akey_iff_mem_map_fst (k : Str) (l : List (Str × α)) :
    akey k l = true ↔ k ∈ l.map Prod.fst := by
  induction l with
  | nil => simp [akey, alookup]
  | cons kv rest ih =>
    obtain ⟨k0, v0⟩ := kv
    by_cases h : k0 = k
    · have h1 : akey k ((k0, v0) :: rest) = true := by
        show (alookup k ((k0, v0) :: rest)).isSome = true
        rw [show alookup k ((k0, v0) :: rest) =
              if k0 = k then some v0 else alookup k rest from rfl, if_pos h]
        rfl
      have h2 : k ∈ ((k0, v0) :: rest).map Prod.fst := by
        rw [List.map_cons]
        exact List.mem_cons.mpr (Or.inl h.symm)
      exact ⟨fun _ => h2, fun _ => h1⟩
    · simp only [akey, alookup, if_neg h, List.map_cons, List.mem_cons]
      rw [show (alookup k rest).isSome = akey k rest from rfl, ih]
      constructor
      · exact fun hh => Or.inr hh
      · rintro (hh | hh)
        · exact absurd hh.symm h
        · exact hh

theorem alookup_map_const (k : Str) (l : List (Str × α)) (c : β) :
    alookup k (l.map (fun kv => (kv.1, c))) = (alookup k l).map (fun _ => c) := by
  induction l with
  | nil => simp [alookup]
  | cons kv rest ih =>
    obtain ⟨k0, v0⟩ := kv
    by_cases h : k0 = k
    · subst h; simp [alookup]
    · simp [alookup, h, ih]

theorem akey_append (k : Str) (a b : List (Str × α)) :
    akey k (a ++ b) = (akey k a || akey k b) := by
  induction a with
  | nil => simp [akey, alookup]
  | cons kv rest ih =>
    obtain ⟨k0, v0⟩ := kv
    by_cases h : k0 = k
    · subst h; simp [akey, alookup]
    · simp only [List.cons_append, akey, alookup, if_neg h] at ih ⊢
      exact ih

theorem ainsert_of_not_akey {k : Str} {l : List (Str × α)} (h : akey k l = false)
    (v : α) : ainsert k v l = l ++ [(k, v)] := by
  induction l with
  | nil => simp [ainsert]
  | cons kv rest ih =>
    obtain ⟨k0, v0⟩ := kv
    simp only [akey, alookup] at h
    by_cases h0 : k0 = k
    · simp [h0, Option.isSome] at h
    · simp only [ainsert, if_neg h0, List.cons_append, List.cons.injEq, true_and]
      exact ih (by simpa [akey, alookup, h0] using h)

theorem aupdate_of_fresh {l : List (Str × α)} :
    ∀ acc : List (Str × α), (l.map Prod.fst).Nodup →
      (∀ kv ∈ l, akey kv.1 acc = false) → aupdate acc l = acc ++ l := by
  induction l with
  | nil => intro acc _ _; simp [aupdate]
  | cons kv rest ih =>
    intro acc hnd hfresh
    obtain ⟨k0, v0⟩ := kv
    simp only [List.map_cons, List.nodup_cons] at hnd
    have h0 : akey k0 acc = false := hfresh (k0, v0) (List.mem_cons_self _ _)
    have hstep : aupdate acc ((k0, v0) :: rest) = aupdate (ainsert k0 v0 acc) rest := rfl
    have hins : ainsert k0 v0 acc = acc ++ [(k0, v0)] := ainsert_of_not_akey h0 v0
    have hfresh' : ∀ kv ∈ rest, akey kv.1 (ainsert k0 v0 acc) = false := by
      intro kv hkv
      have hne : kv.1 ≠ k0 := fun hh => hnd.1 (hh ▸ List.mem_map_of_mem Prod.fst hkv)
      have hone : akey kv.1 [(k0, v0)] = false := by
        simp [akey, alookup, Ne.symm hne]
      rw [hins, akey_append, hfresh kv (List.mem_cons_of_mem _ hkv), hone]
      rfl
    rw [hstep, ih (ainsert k0 v0 acc) hnd.2 hfresh', hins, List.append_assoc]
    rfl

end DictLemmas

/-! #### splitOnChar lemmas -/

theorem splitOnChar_ne_nil (c : Char) (s : Str) : splitOnChar c s ≠ [] := by
  induction s with
  | nil => simp [splitOnChar]
  | cons x xs ih =>
    simp only [splitOnChar]
    by_cases h : x = c
    · simp [h]
    · simp only [if_neg h]
      rcases hs : splitOnChar c xs with _ | ⟨y, ys⟩
      · simp
      · simp

theorem splitOnChar_not_mem {c : Char} {s : Str} (h : c ∉ s) :
    splitOnChar c s = [s] := by
  induction s with
  | nil => rfl
  | cons x xs ih =>
    have hx : x ≠ c := fun hh => h (hh ▸ List.mem_cons_self x xs)
    simp only [splitOnChar, if_neg hx]
    rw [ih (fun hh => h (List.mem_cons_of_mem x hh))]

theorem splitOnChar_append_cons {c : Char} {a : Str} (h : c ∉ a) (rest : Str) :
    splitOnChar c (a ++ c :: rest) = a :: splitOnChar c rest := by
  induction a with
  | nil => simp [splitOnChar]
  | cons x xs ih =>
    have hx : x ≠ c := fun hh => h (hh ▸ List.mem_cons_self x xs)
    simp only [List.cons_append, splitOnChar, if_neg hx, List.append_eq]
    rw [ih (fun hh => h (List.mem_cons_of_mem x hh))]

/-! #### Claim C7 -/

/-- C7: for every input string `x`, `sanitize (sanitize x) = sanitize x`,
and `sanitize x` contains only characters of the class `[A-Za-z_\-0-9.]`,
where `sanitize` collapses whitespace runs to `_`, replaces `/` by `-`, and
deletes every character outside the allowed class, in that order. -/
theorem C7_sanitize_idempotent_charset (x : Str) :
    sanitize (sanitize x) = sanitize x ∧ ∀ c ∈ sanitize x, allowedChar c = true :=
  ⟨sanitize_idem x, fun _ hc => mem_sanitize_allowed hc⟩

/-- Witness for C7 at the concrete input `"a b/c!"`. -/
theorem C7_witness :
    sanitize (str "a b/c!") = str "a_b-c" ∧
      (sanitize (sanitize (str "a b/c!")) = sanitize (str "a b/c!") ∧
        ∀ c ∈ sanitize (str "a b/c!"), allowedChar c = true) :=
  ⟨by decide, C7_sanitize_idempotent_charset (str "a b/c!")⟩

/-! #### Claim C5 -/

/-- C5: for every gauge sample, if the raw value string's first byte is `+`
or `-` and `gauges[key]` exists then the parsed value is added to
`gauges[key]`; otherwise (no sign, or a previously-unseen key) the parsed
value is stored absolutely.  The raw value string is `fields[0] or "0"`. -/
theorem C5_gauge_delta (key : Str) (fields : List Str) (s : SDState) (v : ℚ)
    (h : parseFloat? (if fields.headD [] = [] then str "0" else fields.headD []) = some v) :
    ((if fields.headD [] = [] then str "0" else fields.headD []).headD ' '
        ∈ (['+', '-'] : List Char) ∧ akey key s.gauges = true →
      alookup key (handle_gauge key fields s).gauges =
        some ((alookup key s.gauges).getD 0 + v)) ∧
    (¬((if fields.headD [] = [] then str "0" else fields.headD []).headD ' '
        ∈ (['+', '-'] : List Char) ∧ akey key s.gauges = true) →
      alookup key (handle_gauge key fields s).gauges = some v) := by
  constructor
  · intro hc
    simp only [handle_gauge, h, if_pos hc]
    exact alookup_ainsert_self key _ s.gauges
  · intro hc
    simp only [handle_gauge, h, if_neg hc]
    exact alookup_ainsert_self key v s.gauges

/-- Witness for C5: a delta sample `+5|g` on a key holding `10` yields `15`,
and the same sample on an unseen key stores `5` absolutely. -/
theorem C5_witness :
    (parseFloat? (if (([str "+5", str "g"] : List Str).headD [] = []) then str "0"
        else ([str "+5", str "g"] : List Str).headD []) = some 5) ∧
    alookup (str "t")
        (handle_gauge (str "t") [str "+5", str "g"]
          { emptyState with gauges := [(str "t", 10)] }).gauges = some 15 ∧
    alookup (str "t") (handle_gauge (str "t") [str "+5", str "g"] emptyState).gauges =
      some 5 := by
  refine ⟨by decide, ?_, ?_⟩
  · have := (C5_gauge_delta (str "t") [str "+5", str "g"]
      { emptyState with gauges := [(str "t", 10)] } 5 (by decide)).1 (by decide)
    rw [this]
    norm_num [alookup, emptyState, str]
  · have := (C5_gauge_delta (str "t") [str "+5", str "g"] emptyState 5 (by decide)).2
      (by decide)
    exact this

/-! #### Claim C6 -/

theorem parse_tag_elem_eq_one {a b : Str} (ha : '=' ∉ a) (hb : '=' ∉ b) :
    parse_tag_elem (a ++ ('=' :: b)) = (a, some b) := by
  have hsplit : splitOnChar '=' (a ++ ('=' :: b)) = [a, b] := by
    rw [splitOnChar_append_cons ha, splitOnChar_not_mem hb]
  simp [parse_tag_elem, hsplit]

theorem parse_tag_elem_eq_two {a b : Str} (c : Str) (ha : '=' ∉ a) (hb : '=' ∉ b) :
    parse_tag_elem (a ++ ('=' :: (b ++ ('=' :: c)))) = (a, some b) := by
  have hsplit : splitOnChar '=' (a ++ ('=' :: (b ++ ('=' :: c)))) =
      a :: b :: splitOnChar '=' c := by
    rw [splitOnChar_append_cons ha, splitOnChar_append_cons hb]
  simp [parse_tag_elem, hsplit]

theorem parse_tag_elem_colon_one {a b : Str} (ha : '=' ∉ a) (hb : '=' ∉ b)
    (ha' : ':' ∉ a) (hb' : ':' ∉ b) :
    parse_tag_elem (a ++ (':' :: b)) = (a, some b) := by
  have hno : '=' ∉ a ++ (':' :: b) := by
    intro hm
    rcases List.mem_append.mp hm with hm | hm
    · exact ha hm
    · rcases List.mem_cons.mp hm with hm | hm
      · exact absurd hm (by decide)
      · exact hb hm
  have h1 : splitOnChar '=' (a ++ (':' :: b)) = [a ++ (':' :: b)] :=
    splitOnChar_not_mem hno
  have h2 : splitOnChar ':' (a ++ (':' :: b)) = [a, b] := by
    rw [splitOnChar_append_cons ha', splitOnChar_not_mem hb']
  simp [parse_tag_elem, h1, h2]

theorem parse_tag_elem_colon_two {a b : Str} (c : Str) (ha : '=' ∉ a) (hb : '=' ∉ b)
    (hc : '=' ∉ c) (ha' : ':' ∉ a) (hb' : ':' ∉ b) :
    parse_tag_elem (a ++ (':' :: (b ++ (':' :: c)))) = (a, some b) := by
  have hno : '=' ∉ a ++ (':' :: (b ++ (':' :: c))) := by
    intro hm
    rcases List.mem_append.mp hm with hm | hm
    · exact ha hm
    · rcases List.mem_cons.mp hm with hm | hm
      · exact absurd hm (by decide)
      · rcases List.mem_append.mp hm with hm | hm
        · exact hb hm
        · rcases List.mem_cons.mp hm with hm | hm
          · exact absurd hm (by decide)
          · exact hc hm
  have h1 := splitOnChar_not_mem hno
  have h2 : splitOnChar ':' (a ++ (':' :: (b ++ (':' :: c)))) =
      a :: b :: splitOnChar ':' c := by
    rw [splitOnChar_append_cons ha', splitOnChar_append_cons hb']
  simp [parse_tag_elem, h1, h2]

theorem parse_tag_elem_no_sep {i : Str} (h1 : '=' ∉ i) (h2 : ':' ∉ i) :
    parse_tag_elem i = (i, none) := by
  simp [parse_tag_elem, splitOnChar_not_mem h1, splitOnChar_not_mem h2]

/-- C6 counterexample: the tag element `k=v1=v2` does not yield the value
`v1=v2` (the split is on every `=`, not once). -/
theorem C6_counterexample :
    parse_tag_elem (str "k=v1=v2") ≠ (str "k", some (str "v1=v2")) := by decide

/-- C6 (amended): each comma-separated tag element is split on every `=`;
if it contains at least one `=` the key is the part before the first `=`
and the value is the part between the first and the second `=` (or to the
end if there is only one), pieces after the second `=` being discarded
(so `k=v1=v2` yields value `v1`, not `v1=v2`); otherwise the same rule
applies with `:`; otherwise the whole element is a key mapped to null. -/
theorem C6_tag_element_amended :
    (∀ a b : Str, '=' ∉ a → '=' ∉ b →
      parse_tag_elem (a ++ ('=' :: b)) = (a, some b)) ∧
    (∀ a b c : Str, '=' ∉ a → '=' ∉ b →
      parse_tag_elem (a ++ ('=' :: (b ++ ('=' :: c)))) = (a, some b)) ∧
    (∀ a b : Str, '=' ∉ a → '=' ∉ b → ':' ∉ a → ':' ∉ b →
      parse_tag_elem (a ++ (':' :: b)) = (a, some b)) ∧
    (∀ a b c : Str, '=' ∉ a → '=' ∉ b → '=' ∉ c → ':' ∉ a → ':' ∉ b →
      parse_tag_elem (a ++ (':' :: (b ++ (':' :: c)))) = (a, some b)) ∧
    (∀ i : Str, '=' ∉ i → ':' ∉ i → parse_tag_elem i = (i, none)) :=
  ⟨fun _ _ ha hb => parse_tag_elem_eq_one ha hb,
   fun _ _ c ha hb => parse_tag_elem_eq_two c ha hb,
   fun _ _ ha hb ha' hb' => parse_tag_elem_colon_one ha hb ha' hb',
   fun _ _ c ha hb hc ha' hb' => parse_tag_elem_colon_two c ha hb hc ha' hb',
   fun _ h1 h2 => parse_tag_elem_no_sep h1 h2⟩

/-- Witness for C6 (amended) at `k=v1=v2`, `k:v1:v2` and `k`. -/
theorem C6_witness :
    parse_tag_elem (str "k" ++ ('=' :: (str "v1" ++ ('=' :: str "v2")))) =
      (str "k", some (str "v1")) ∧
    parse_tag_elem (str "k" ++ (':' :: (str "v1" ++ (':' :: str "v2")))) =
      (str "k", some (str "v1")) ∧
    parse_tag_elem (str "k") = (str "k", none) :=
  ⟨C6_tag_element_amended.2.1 (str "k") (str "v1") (str "v2") (by decide) (by decide),
   C6_tag_element_amended.2.2.2.1 (str "k") (str "v1") (str "v2") (by decide) (by decide)
     (by decide) (by decide) (by decide),
   C6_tag_element_amended.2.2.2.2 (str "k") (by decide) (by decide)⟩

/-! #### Claim C1 -/

/-- C1 counterexample: parsing `latency#region=us,ver=1:23|ms` does not
append the timer sample 23.0 — `timers` gets no entry for `latency` at
all (the `:23|ms` portion is swallowed into the tag annotation). -/
theorem C1_counterexample :
    alookup (str "latency")
        (handle_line cfg0 (str "latency#region=us,ver=1:23|ms") emptyState).timers ≠
      some [(23 : ℚ)] := by decide

/-- C1 (amended): `handle_tags` treats the entire suffix after the first
`#` as the tag annotation.  For `latency#region=us,ver=1:23|ms` the line
that remains is just `latency`: the sanitized key is recorded in
`keys_seen` with metadata `{region: "us", ver: "1:23|ms"}`, the line is
then rejected as having no samples (one bad-line log) and no timer sample
is appended.  A tag annotation is stripped as the spec intends only at the
end of the line: `latency:23|ms|#region=us,ver=1` aggregates under
`latency` with metadata `{region: "us", ver: "1"}` and appends the timer
sample 23.0 to `timers["latency"]`. -/
theorem C1_tags_amended :
    handle_line cfg0 (str "latency#region=us,ver=1:23|ms") emptyState =
      { emptyState with
          keys_seen := [(str "latency",
            some [(str "region", some (str "us")), (str "ver", some (str "1:23|ms"))])],
          badLines := 1 } ∧
    handle_line cfg0 (str "latency:23|ms|#region=us,ver=1") emptyState =
      { emptyState with
          timers := [(str "latency", [(23 : ℚ)])],
          keys_seen := [(str "latency",
            some [(str "region", some (str "us")), (str "ver", some (str "1"))])] } :=
  ⟨by decide, by decide⟩

/-! #### Claim C2 -/

theorem handle_sample_keys_seen (key smp : Str) (s : SDState) :
    (handle_sample key smp s).keys_seen = s.keys_seen := by
  simp only [handle_sample, handle_timer, handle_gauge, handle_set, handle_counter,
    bad_line]
  repeat' split
  all_goals rfl

theorem foldl_handle_sample_keys_seen (key : Str) (samples : List Str) (s : SDState) :
    (samples.foldl (fun st smp => handle_sample key smp st) s).keys_seen =
      s.keys_seen := by
  induction samples generalizing s with
  | nil => rfl
  | cons smp rest ih =>
    rw [List.foldl_cons, ih, handle_sample_keys_seen]

theorem handle_line_keys_seen (cfg : Cfg) (line : Str) (s : SDState) :
    (handle_line cfg line s).keys_seen =
      (handle_key cfg ((splitOnChar ':' (handle_tags line).1).headD [])
        (handle_tags line).2 s).2.keys_seen := by
  simp only [handle_line]
  split
  · rfl
  · rw [foldl_handle_sample_keys_seen]

theorem akey_handle_line_keys_seen (cfg : Cfg) (line : Str) (s : SDState) (k : Str) :
    akey k (handle_line cfg line s).keys_seen = true ↔
      (k = sanitize ((splitOnChar ':' (handle_tags line).1).headD []) ∨
        akey k s.keys_seen = true) := by
  rw [handle_line_keys_seen]
  exact akey_ainsert _ k _ s.keys_seen

theorem akey_cons {α : Type} (k k0 : Str) (v : α) (l : List (Str × α)) :
    akey k ((k0, v) :: l) = true ↔ k0 = k ∨ akey k l = true := by
  by_cases h : k0 = k
  · simp [akey, alookup, h]
  · simp [akey, alookup, h]

theorem akey_filterMap_lookup {α : Type} (keys : List Str) (m : List (Str × α))
    (k : Str) :
    akey k (keys.filterMap (fun k' => (alookup k' m).map (fun v => (k', v)))) = true ↔
      k ∈ keys ∧ akey k m = true := by
  induction keys with
  | nil => simp [akey, alookup]
  | cons k0 ks ih =>
    rcases h0 : alookup k0 m with _ | v
    · simp only [List.filterMap_cons, h0, Option.map_none']
      rw [ih]
      constructor
      · rintro ⟨hk, hm⟩
        exact ⟨List.mem_cons_of_mem _ hk, hm⟩
      · rintro ⟨hk, hm⟩
        rcases List.mem_cons.mp hk with rfl | hk
        · rw [akey, h0] at hm
          simp at hm
        · exact ⟨hk, hm⟩
    · simp only [List.filterMap_cons, h0, Option.map_some']
      rw [akey_cons, ih]
      constructor
      · rintro (rfl | ⟨hk, hm⟩)
        · exact ⟨List.mem_cons_self _ _, by rw [akey, h0]; rfl⟩
        · exact ⟨List.mem_cons_of_mem _ hk, hm⟩
      · rintro ⟨hk, hm⟩
        rcases List.mem_cons.mp hk with rfl | hk
        · exact Or.inl rfl
        · exact Or.inr ⟨hk, hm⟩

theorem map_fst_map_reset {α β : Type} (l : List (Str × α)) (c : β) :
    (l.map (fun kv => (kv.1, c))).map Prod.fst = l.map Prod.fst := by
  simp [List.map_map]

theorem tick_keys_seen_akey (cfg : Cfg) (stime : ℤ) (s : SDState) (k : Str) :
    akey k (tick cfg stime s).1.keys_seen = true ↔
      (akey k s.keys_seen = true ∧
        (akey k (tick cfg stime s).1.timers = true ∨
         akey k (tick cfg stime s).1.counters = true ∨
         akey k (tick cfg stime s).1.gauges = true ∨
         akey k (tick cfg stime s).1.sets = true)) := by
  have hG : (tick cfg stime s).1.gauges = s.gauges := rfl
  have hK : (tick cfg stime s).1.keys_seen =
      ((((tick cfg stime s).1.timers.map Prod.fst) ++
        ((tick cfg stime s).1.counters.map Prod.fst) ++
        (s.gauges.map Prod.fst) ++
        ((tick cfg stime s).1.sets.map Prod.fst)).dedup).filterMap
        (fun k' => (alookup k' s.keys_seen).map (fun m => (k', m))) := rfl
  rw [hK, akey_filterMap_lookup, List.mem_dedup]
  simp only [List.mem_append]
  rw [← akey_iff_mem_map_fst, ← akey_iff_mem_map_fst, ← akey_iff_mem_map_fst,
    ← akey_iff_mem_map_fst, hG]
  tauto

/-- C2 (amended): a key is present in `keys_seen` after `handle_line` iff
it was present before or it is the sanitized key of that line —
`handle_key` records every parsed key before any sample is validated, so
even sample-less or malformed lines record their key; and a key is present
in `keys_seen` after a flush tick iff it was present before the tick and
still owns an entry in one of the four maps after the tick (the tick
prunes `keys_seen` to the surviving keys, it does not clear it). -/
theorem C2_keys_seen_amended (cfg : Cfg) (stime : ℤ) (line : Str) (s : SDState)
    (k : Str) :
    (akey k (handle_line cfg line s).keys_seen = true ↔
      (k = sanitize ((splitOnChar ':' (handle_tags line).1).headD []) ∨
        akey k s.keys_seen = true)) ∧
    (akey k (tick cfg stime s).1.keys_seen = true ↔
      (akey k s.keys_seen = true ∧
        (akey k (tick cfg stime s).1.timers = true ∨
         akey k (tick cfg stime s).1.counters = true ∨
         akey k (tick cfg stime s).1.gauges = true ∨
         akey k (tick cfg stime s).1.sets = true))) :=
  ⟨akey_handle_line_keys_seen cfg line s k, tick_keys_seen_akey cfg stime s k⟩

/-- C2 counterexample: handling the invalid line `x` (no samples at all)
records `x` in `keys_seen` although no valid sample mutated any of the
four maps; likewise a tick does not empty `keys_seen`. -/
theorem C2_counterexample :
    akey (str "x") (handle_line cfg0 (str "x") emptyState).keys_seen = true ∧
    (handle_line cfg0 (str "x") emptyState).counters = [] ∧
    (handle_line cfg0 (str "x") emptyState).gauges = [] ∧
    (handle_line cfg0 (str "x") emptyState).timers = [] ∧
    (handle_line cfg0 (str "x") emptyState).sets = [] ∧
    (handle_line cfg0 (str "x") emptyState).badLines = 1 := by decide

/-! #### Claim C3 -/

/-- C3: after a flush tick, every surviving counter equals 0, every
surviving timer list and every surviving set is empty, and `gauges` is
exactly what it was at the start of the tick (a flush never resets
gauges). -/
theorem C3_tick_resets (cfg : Cfg) (stime : ℤ) (s : SDState) (k : Str) :
    (∀ v, alookup k (tick cfg stime s).1.counters = some v → v = 0) ∧
    (∀ v, alookup k (tick cfg stime s).1.timers = some v → v = []) ∧
    (∀ v, alookup k (tick cfg stime s).1.sets = some v → v = []) ∧
    (tick cfg stime s).1.gauges = s.gauges := by
  have hC : (tick cfg stime s).1.counters =
      (if delete_counters cfg then s.counters.filter (fun kv => akey kv.1 s.keys_seen)
       else s.counters).map (fun kv => (kv.1, (0 : ℤ))) := rfl
  have hT : (tick cfg stime s).1.timers =
      (if delete_timers cfg then s.timers.filter (fun kv => akey kv.1 s.keys_seen)
       else s.timers).map (fun kv => (kv.1, ([] : List ℚ))) := rfl
  have hS : (tick cfg stime s).1.sets =
      (if delete_sets cfg then s.sets.filter (fun kv => akey kv.1 s.keys_seen)
       else s.sets).map (fun kv => (kv.1, ([] : List Str))) := rfl
  refine ⟨?_, ?_, ?_, rfl⟩
  · intro v hv
    rw [hC, alookup_map_const] at hv
    obtain ⟨a, _, hv'⟩ := Option.map_eq_some'.mp hv
    exact hv'.symm
  · intro v hv
    rw [hT, alookup_map_const] at hv
    obtain ⟨a, _, hv'⟩ := Option.map_eq_some'.mp hv
    exact hv'.symm
  · intro v hv
    rw [hS, alookup_map_const] at hv
    obtain ⟨a, _, hv'⟩ := Option.map_eq_some'.mp hv
    exact hv'.symm

/-- Witness for C3 on a state holding one counter, gauge, timer and set. -/
theorem C3_witness :
    alookup (str "c") (tick cfg0 0 stMix).1.counters = some 0 ∧
    ((0 : ℤ) = 0 ∧ (tick cfg0 0 stMix).1.gauges = stMix.gauges) :=
  ⟨by decide,
   (C3_tick_resets cfg0 0 stMix (str "c")).1 0 (by decide),
   (C3_tick_resets cfg0 0 stMix (str "c")).2.2.2⟩

/-! #### Claim C4 -/

theorem cumFrom_length (a : ℚ) (l : List ℚ) : (cumFrom a l).length = l.length := by
  induction l generalizing a with
  | nil => rfl
  | cons x xs ih => simp [cumFrom, ih]

theorem cumFrom_getD (l : List ℚ) :
    ∀ (i : ℕ) (a : ℚ), i < l.length →
      (cumFrom a l).getD i 0 = a + ((l.take (i + 1)).sum) := by
  induction l with
  | nil => intro i a h; simp at h
  | cons x xs ih =>
    intro i a h
    cases i with
    | zero => simp [cumFrom, List.getD]
    | succ i =>
      have hlt : i < xs.length := by simpa using h
      simp only [cumFrom, List.getD_cons_succ]
      rw [ih i (a + x) hlt]
      simp [List.sum_cons]
      ring

/-- C4: for a timer key with non-empty sample list `v0` and a percentile
threshold `p` (with `0 < idx ≤ count` where `idx = ⌊p/100·count⌋` and
`count = |v0|`), the per-threshold emissions are exactly: `.mean_<p>` =
(sum of the `idx` smallest samples)/idx, `.upper_<p>` = element `idx-1`
(0-based) of `v0` sorted ascending, `.count_<p>` = `idx`, `.sum_<p>` = sum
of the `idx` smallest samples, `.sum_squares_<p>` likewise over squares;
when `idx = 0` the threshold emits nothing; and every per-threshold
emission for a configured `p` appears among the key's tick emissions. -/
theorem C4_percentiles (cfg : Cfg) (ks : List (Str × Option Tags)) (stime : ℤ)
    (k : Str) (v0 : List ℚ) (p : ℚ)
    (hv : v0 ≠ []) (hm : cfg.enable_timer_mean = true)
    (hu : cfg.enable_timer_upper = true) (hc : cfg.enable_timer_count = true)
    (hs : cfg.enable_timer_sum = true) (hq : cfg.enable_timer_sum_squares = true) :
    (⌊p / 100 * (((sortQ v0).length : ℕ) : ℚ)⌋ = 0 →
      emit_pct cfg ks stime k (sortQ v0) (cumFrom 0 (sortQ v0))
        (cumFrom 0 ((sortQ v0).map (fun x => x * x))) (sortQ v0).length p = []) ∧
    (∀ idx : ℤ, idx = ⌊p / 100 * (((sortQ v0).length : ℕ) : ℚ)⌋ → 0 < idx →
      idx ≤ ((sortQ v0).length : ℤ) →
      emit_pct cfg ks stime k (sortQ v0) (cumFrom 0 (sortQ v0))
          (cumFrom 0 ((sortQ v0).map (fun x => x * x))) (sortQ v0).length p =
        [enqueue cfg ks (name_timer cfg ++ k ++ str ".mean_" ++ intToStr (pyIntOfRat p))
           (((sortQ v0).take idx.toNat).sum / (idx : ℚ)) stime (some k),
         enqueue cfg ks (name_timer cfg ++ k ++ str ".upper_" ++ intToStr (pyIntOfRat p))
           ((sortQ v0).getD (idx.toNat - 1) 0) stime (some k),
         enqueue cfg ks (name_timer cfg ++ k ++ str ".count_" ++ intToStr (pyIntOfRat p))
           (idx : ℚ) stime (some k),
         enqueue cfg ks (name_timer cfg ++ k ++ str ".sum_" ++ intToStr (pyIntOfRat p))
           (((sortQ v0).take idx.toNat).sum) stime (some k),
         enqueue cfg ks (name_timer cfg ++ k ++ str ".sum_squares_" ++ intToStr (pyIntOfRat p))
           ((((sortQ v0).map (fun x => x * x)).take idx.toNat).sum) stime (some k)]) ∧
    (p ∈ cfg.pct_thresholds →
      ∀ e ∈ emit_pct cfg ks stime k (sortQ v0) (cumFrom 0 (sortQ v0))
          (cumFrom 0 ((sortQ v0).map (fun x => x * x))) (sortQ v0).length p,
        e ∈ enqueue_timer_one cfg ks stime k v0) := by
  refine ⟨?_, ?_, ?_⟩
  · intro h0
    simp only [emit_pct, h0, if_pos rfl]
    rfl
  · intro idx hidx h0 hn
    have hfl : ⌊p / 100 * (((sortQ v0).length : ℕ) : ℚ)⌋ = idx := hidx.symm
    have h1 : pyGetD (cumFrom 0 (sortQ v0)) (idx - 1) 0 =
        ((sortQ v0).take idx.toNat).sum := by
      unfold pyGetD
      rw [if_pos (by omega : (0 : ℤ) ≤ idx - 1)]
      rw [cumFrom_getD _ _ _ (by omega)]
      rw [show (idx - 1).toNat + 1 = idx.toNat from by omega]
      norm_num
    have h2 : pyGetD (cumFrom 0 ((sortQ v0).map (fun x => x * x))) (idx - 1) 0 =
        (((sortQ v0).map (fun x => x * x)).take idx.toNat).sum := by
      unfold pyGetD
      rw [if_pos (by omega : (0 : ℤ) ≤ idx - 1)]
      rw [cumFrom_getD _ _ _ (by simp only [List.length_map]; omega)]
      rw [show (idx - 1).toNat + 1 = idx.toNat from by omega]
      norm_num
    have h3 : pyGetD (sortQ v0) (idx - 1) 0 = (sortQ v0).getD (idx.toNat - 1) 0 := by
      unfold pyGetD
      rw [if_pos (by omega : (0 : ℤ) ≤ idx - 1)]
      rw [show (idx - 1).toNat = idx.toNat - 1 from by omega]
    simp only [emit_pct, hfl, if_neg (by omega : ¬idx = 0), hm, hu, hc, hs, hq,
      if_true, h1, h2, h3]
    simp
  · intro hp e he
    simp only [enqueue_timer_one, if_neg hv]
    refine List.mem_append_left _ (List.mem_append_left _ (List.mem_append_left _
      (List.mem_append_left _ (List.mem_append_left _ (List.mem_append_left _
        (List.mem_append_left _ (List.mem_append_left _ (List.mem_append_left _
          ?_))))))))
    exact List.mem_flatten.mpr ⟨_, List.mem_map_of_mem _ hp, he⟩

/-- Witness for C4 at samples `[3, 1, 2]` and threshold 90 (so
`idx = ⌊0.9·3⌋ = 2`). -/
theorem C4_witness :
    emit_pct cfg0 [] 0 (str "t") (sortQ [3, 1, 2]) (cumFrom 0 (sortQ [3, 1, 2]))
        (cumFrom 0 ((sortQ [3, 1, 2]).map (fun x => x * x))) (sortQ [3, 1, 2]).length 90 =
      [enqueue cfg0 [] (name_timer cfg0 ++ str "t" ++ str ".mean_" ++
          intToStr (pyIntOfRat 90))
         (((sortQ [3, 1, 2]).take (2 : ℤ).toNat).sum / ((2 : ℤ) : ℚ)) 0 (some (str "t")),
       enqueue cfg0 [] (name_timer cfg0 ++ str "t" ++ str ".upper_" ++
          intToStr (pyIntOfRat 90))
         ((sortQ [3, 1, 2]).getD ((2 : ℤ).toNat - 1) 0) 0 (some (str "t")),
       enqueue cfg0 [] (name_timer cfg0 ++ str "t" ++ str ".count_" ++
          intToStr (pyIntOfRat 90))
         (((2 : ℤ) : ℚ)) 0 (some (str "t")),
       enqueue cfg0 [] (name_timer cfg0 ++ str "t" ++ str ".sum_" ++
          intToStr (pyIntOfRat 90))
         (((sortQ [3, 1, 2]).take (2 : ℤ).toNat).sum) 0 (some (str "t")),
       enqueue cfg0 [] (name_timer cfg0 ++ str "t" ++ str ".sum_squares_" ++
          intToStr (pyIntOfRat 90))
         ((((sortQ [3, 1, 2]).map (fun x => x * x)).take (2 : ℤ).toNat).sum) 0
         (some (str "t"))] :=
  (C4_percentiles cfg0 [] 0 (str "t") [3, 1, 2] 90 (by decide) rfl rfl rfl rfl rfl).2.1
    2 (by norm_num [sortQ, List.insertionSort, List.orderedInsert])
    (by norm_num) (by norm_num [sortQ, List.insertionSort, List.orderedInsert])

/-! #### Claim C10 -/

theorem enqueue_name (cfg : Cfg) (ks : List (Str × Option Tags)) (nm : Str)
    (stat : ℚ) (stime : ℤ) (mk : Option Str) :
    (enqueue cfg ks nm stat stime mk).name = nm := by
  simp only [enqueue]
  split <;> rfl

theorem mem_ite_singleton {α : Type} {b : Prop} [Decidable b] {x e : α}
    (h : e ∈ (if b then [x] else [])) : e = x := by
  split at h
  · exact List.mem_singleton.mp h
  · exact absurd h (List.not_mem_nil e)

theorem append_ne_of_suffix_ne {pre x y : Str} (h : x ≠ y) : pre ++ x ≠ pre ++ y :=
  fun hh => h (List.append_cancel_left hh)

theorem dotted_append_ne {c1 c2 : Char} {r1 r2 x : Str} (h : c1 ≠ c2) :
    ('.' :: c1 :: r1) ++ x ≠ '.' :: c2 :: r2 := by
  intro hh
  rw [List.cons_append, List.cons_append] at hh
  injection hh with _ hh1
  injection hh1 with hh2 _
  exact h hh2

theorem emit_pct_no_count_names {cfg : Cfg} {ks : List (Str × Option Tags)}
    {stime : ℤ} {k : Str} {v cum cumSq : List ℚ} {n : ℕ} {p : ℚ}
    (hc : cfg.enable_timer_count = false) {e : Emission}
    (he : e ∈ emit_pct cfg ks stime k v cum cumSq n p) :
    e.name ≠ name_timer cfg ++ k ++ str ".count" ∧
    e.name ≠ name_timer cfg ++ k ++ str ".count_ps" := by
  simp only [emit_pct] at he
  split at he
  · exact absurd he (List.not_mem_nil e)
  · rw [hc] at he
    simp only [List.mem_append] at he
    rcases he with (((he | he) | he) | he) | he
    · have hx := mem_ite_singleton he
      rw [hx, enqueue_name, List.append_assoc,
        (by decide : str ".mean_" = '.' :: 'm' :: str "ean_"),
        (by decide : str ".count" = '.' :: 'c' :: str "ount"),
        (by decide : str ".count_ps" = '.' :: 'c' :: str "ount_ps")]
      exact ⟨append_ne_of_suffix_ne (dotted_append_ne (by decide)),
        append_ne_of_suffix_ne (dotted_append_ne (by decide))⟩
    · have hx := mem_ite_singleton he
      rw [hx, enqueue_name, List.append_assoc,
        (by decide : str ".upper_" = '.' :: 'u' :: str "pper_"),
        (by decide : str ".count" = '.' :: 'c' :: str "ount"),
        (by decide : str ".count_ps" = '.' :: 'c' :: str "ount_ps")]
      exact ⟨append_ne_of_suffix_ne (dotted_append_ne (by decide)),
        append_ne_of_suffix_ne (dotted_append_ne (by decide))⟩
    · simp at he
    · have hx := mem_ite_singleton he
      rw [hx, enqueue_name, List.append_assoc,
        (by decide : str ".sum_" = '.' :: 's' :: str "um_"),
        (by decide : str ".count" = '.' :: 'c' :: str "ount"),
        (by decide : str ".count_ps" = '.' :: 'c' :: str "ount_ps")]
      exact ⟨append_ne_of_suffix_ne (dotted_append_ne (by decide)),
        append_ne_of_suffix_ne (dotted_append_ne (by decide))⟩
    · have hx := mem_ite_singleton he
      rw [hx, enqueue_name, List.append_assoc,
        (by decide : str ".sum_squares_" = '.' :: 's' :: str "um_squares_"),
        (by decide : str ".count" = '.' :: 'c' :: str "ount"),
        (by decide : str ".count_ps" = '.' :: 'c' :: str "ount_ps")]
      exact ⟨append_ne_of_suffix_ne (dotted_append_ne (by decide)),
        append_ne_of_suffix_ne (dotted_append_ne (by decide))⟩

/-- C10: with the `timer_count` and `timer_count_ps` enables off, a timer
key with an empty sample list still emits `.count = 0` and
`.count_ps = 0.0` unconditionally, while on the non-empty path no
`.count` or `.count_ps` sub-metric is emitted at all (each is gated by its
enable flag there). -/
theorem C10_empty_timer_count (cfg : Cfg) (ks : List (Str × Option Tags))
    (stime : ℤ) (k : Str) (v0 : List ℚ)
    (hc : cfg.enable_timer_count = false) (hps : cfg.enable_timer_count_ps = false) :
    (enqueue_timer_one cfg ks stime k [] =
      [enqueue cfg ks (name_timer cfg ++ k ++ str ".count") 0 stime (some k),
       enqueue cfg ks (name_timer cfg ++ k ++ str ".count_ps") 0 stime (some k)]) ∧
    (v0 ≠ [] → ∀ e ∈ enqueue_timer_one cfg ks stime k v0,
      e.name ≠ name_timer cfg ++ k ++ str ".count" ∧
      e.name ≠ name_timer cfg ++ k ++ str ".count_ps") := by
  constructor
  · simp [enqueue_timer_one]
  · intro hv e he
    simp only [enqueue_timer_one, if_neg hv, List.mem_append] at he
    rcases he with ((((((((he | he) | he) | he) | he) | he) | he) | he) | he) | he
    · obtain ⟨l, hl, hel⟩ := List.mem_flatten.mp he
      obtain ⟨p, _, rfl⟩ := List.mem_map.mp hl
      exact emit_pct_no_count_names hc hel
    · have hx := mem_ite_singleton he
      rw [hx, enqueue_name]
      exact ⟨append_ne_of_suffix_ne (by decide), append_ne_of_suffix_ne (by decide)⟩
    · have hx := mem_ite_singleton he
      rw [hx, enqueue_name]
      exact ⟨append_ne_of_suffix_ne (by decide), append_ne_of_suffix_ne (by decide)⟩
    · have hx := mem_ite_singleton he
      rw [hx, enqueue_name]
      exact ⟨append_ne_of_suffix_ne (by decide), append_ne_of_suffix_ne (by decide)⟩
    · rw [hc] at he
      simp at he
    · rw [hps] at he
      simp at he
    · have hx := mem_ite_singleton he
      rw [hx, enqueue_name]
      exact ⟨append_ne_of_suffix_ne (by decide), append_ne_of_suffix_ne (by decide)⟩
    · have hx := mem_ite_singleton he
      rw [hx, enqueue_name]
      exact ⟨append_ne_of_suffix_ne (by decide), append_ne_of_suffix_ne (by decide)⟩
    · have hx := mem_ite_singleton he
      rw [hx, enqueue_name]
      exact ⟨append_ne_of_suffix_ne (by decide), append_ne_of_suffix_ne (by decide)⟩
    · have hx := mem_ite_singleton he
      rw [hx, enqueue_name]
      exact ⟨append_ne_of_suffix_ne (by decide), append_ne_of_suffix_ne (by decide)⟩

/-- Witness for C10 with `cfgNoCount` (both count enables off), an empty
timer list and the non-empty list `[1]`. -/
theorem C10_witness :
    (enqueue_timer_one cfgNoCount [] 0 (str "t") [] =
      [enqueue cfgNoCount [] (name_timer cfgNoCount ++ str "t" ++ str ".count")
         0 0 (some (str "t")),
       enqueue cfgNoCount [] (name_timer cfgNoCount ++ str "t" ++ str ".count_ps")
         0 0 (some (str "t"))]) ∧
    (∀ e ∈ enqueue_timer_one cfgNoCount [] 0 (str "t") [(1 : ℚ)],
      e.name ≠ name_timer cfgNoCount ++ str "t" ++ str ".count" ∧
      e.name ≠ name_timer cfgNoCount ++ str "t" ++ str ".count_ps") :=
  ⟨(C10_empty_timer_count cfgNoCount [] 0 (str "t") [(1 : ℚ)] rfl rfl).1,
   (C10_empty_timer_count cfgNoCount [] 0 (str "t") [(1 : ℚ)] rfl rfl).2 (by decide)⟩

/-! #### Claim C8 -/

/-- C8 counterexample: for the state with `gauges = {"a": 1}` and empty
`keys_seen`, the save→load round-trip does not restore `keys_seen`
restricted to the gauge keys: the key `a` comes back as present with null
metadata instead of absent. -/
theorem C8_counterexample :
    ¬((load_gauges cfg0 (save_gauges cfg0 stGauge) emptyState).gauges =
        stGauge.gauges ∧
      (load_gauges cfg0 (save_gauges cfg0 stGauge) emptyState).keys_seen.filter
          (fun kv => akey kv.1 stGauge.gauges) =
        stGauge.keys_seen.filter (fun kv => akey kv.1 stGauge.gauges)) := by decide

/-- C8 (amended): with persistence enabled and duplicate-free gauge keys, a
save→load round-trip into a fresh handler restores `gauges` exactly, and
the restored `keys_seen` maps every gauge key `k` to `K.get(k, null)`: a
gauge key absent from the original `keys_seen` is restored as present with
null metadata rather than absent (so the spec's restriction equality holds
exactly when every gauge key is present in `keys_seen`). -/
theorem C8_roundtrip_amended (cfg : Cfg) (G : List (Str × ℚ))
    (K : List (Str × Option Tags)) (hp : cfg.statsd_persistent_gauges = true)
    (hnd : (G.map Prod.fst).Nodup) :
    (load_gauges cfg (save_gauges cfg { emptyState with gauges := G, keys_seen := K })
        emptyState).gauges = G ∧
    (load_gauges cfg (save_gauges cfg { emptyState with gauges := G, keys_seen := K })
        emptyState).keys_seen = G.map (fun kv => (kv.1, (alookup kv.1 K).join)) := by
  have hfile : save_gauges cfg { emptyState with gauges := G, keys_seen := K } =
      some (G.map (fun kv => (kv.1, (kv.2, (alookup kv.1 K).join)))) := by
    simp [save_gauges, hp]
  have hmapG : (G.map (fun kv => (kv.1, (kv.2, (alookup kv.1 K).join)))).map
      (fun kv => (kv.1, kv.2.1)) = G := by
    rw [List.map_map]
    exact List.map_id'' (fun x => rfl) G
  have hmapK : (G.map (fun kv => (kv.1, (kv.2, (alookup kv.1 K).join)))).map
      (fun kv => (kv.1, kv.2.2)) = G.map (fun kv => (kv.1, (alookup kv.1 K).join)) := by
    rw [List.map_map]
    rfl
  have hndK : ((G.map (fun kv => (kv.1, (alookup kv.1 K).join))).map Prod.fst).Nodup := by
    rw [List.map_map]
    exact hnd
  constructor
  · simp only [load_gauges, hp, hfile, if_true, hmapG]
    rw [show (emptyState.gauges : List (Str × ℚ)) = [] from rfl,
      aupdate_of_fresh [] hnd (fun kv _ => rfl)]
    rfl
  · simp only [load_gauges, hp, hfile, if_true, hmapK]
    rw [show (emptyState.keys_seen : List (Str × Option Tags)) = [] from rfl,
      aupdate_of_fresh [] hndK (fun kv _ => rfl)]
    rfl

/-- Witness for C8 (amended) on a single gauge key missing from
`keys_seen`. -/
theorem C8_witness :
    (load_gauges cfg0
        (save_gauges cfg0 { emptyState with gauges := [(str "g", 2)], keys_seen := [] })
        emptyState).gauges = [(str "g", 2)] ∧
    (load_gauges cfg0
        (save_gauges cfg0 { emptyState with gauges := [(str "g", 2)], keys_seen := [] })
        emptyState).keys_seen =
      [(str "g", (2 : ℚ))].map (fun kv => (kv.1, (alookup kv.1 ([] : List (Str × Option Tags))).join)) :=
  C8_roundtrip_amended cfg0 [(str "g", 2)] [] rfl (by decide)

/-! #### Claim C9 -/

theorem handle_sample_muts_locked (smp : Str) :
    ∀ e ∈ handle_sample_muts smp, e.underLock = true ∧ e.target ≠ MapId.keysSeen := by
  intro e he
  simp only [handle_sample_muts, handle_timer_muts, handle_gauge_muts,
    handle_set_muts, handle_counter_muts] at he
  repeat' split at he
  all_goals first
    | exact absurd he (List.not_mem_nil e)
    | (rw [List.mem_singleton] at he; subst he; exact ⟨rfl, by decide⟩)

/-- C9 counterexample: handling the valid counter line `a:1|c` performs a
mutation (the `handle_key` write to `keys_seen`) that is not under the
engine mutex. -/
theorem C9_counterexample :
    ¬(∀ e ∈ handle_line_muts (str "a:1|c"), e.underLock = true) := by decide

/-- C9 (amended): within `handle_line`, a mutation happens without the
mutex exactly when it is the `handle_key` write to `keys_seen` (the four
sample-value handlers mutate counters/gauges/timers/sets under the mutex);
every mutation of the flush tick is under the mutex; and the
`load_gauges` writes to `gauges` and `keys_seen` are not under the
mutex. -/
theorem C9_lock_amended :
    (∀ line : Str, ∀ e ∈ handle_line_muts line,
      (e.underLock = false ↔ e.target = MapId.keysSeen)) ∧
    (∀ e ∈ tick_muts, e.underLock = true) ∧
    (∀ (cfg : Cfg) (file : Option (List (Str × (ℚ × Option Tags)))),
      ∀ e ∈ load_gauges_muts cfg file, e.underLock = false) := by
  refine ⟨?_, by decide, ?_⟩
  · intro line e he
    simp only [handle_line_muts, handle_key_muts, List.mem_append] at he
    rcases he with he | he
    · rw [List.mem_singleton] at he
      subst he
      exact ⟨fun _ => rfl, fun _ => rfl⟩
    · split at he
      · exact absurd he (List.not_mem_nil e)
      · obtain ⟨l, hl, hel⟩ := List.mem_flatten.mp he
        obtain ⟨smp, _, rfl⟩ := List.mem_map.mp hl
        obtain ⟨h1, h2⟩ := handle_sample_muts_locked smp e hel
        rw [h1]
        exact ⟨fun hh => absurd hh (by decide), fun hh => absurd hh h2⟩
  · intro cfg file e he
    simp only [load_gauges_muts] at he
    split at he
    · split at he
      · exact absurd he (List.not_mem_nil e)
      · rcases List.mem_cons.mp he with rfl | he
        · rfl
        · rw [List.mem_singleton] at he
          subst he
          rfl
    · exact absurd he (List.not_mem_nil e)

/-- Witness for C9 (amended) at the line `a:1|c` and a tick mutation. -/
theorem C9_witness :
    ((Mut.mk MapId.keysSeen false).underLock = false ↔
      (Mut.mk MapId.keysSeen false).target = MapId.keysSeen) ∧
    (Mut.mk MapId.timers true).underLock = true :=
  ⟨C9_lock_amended.1 (str "a:1|c") (Mut.mk MapId.keysSeen false) (by decide),
   C9_lock_amended.2.1 (Mut.mk MapId.timers true) (by decide)⟩

end Bucky
